import Mathlib

/-!
Verification development for the payment-request escrow programs of this
repository (plain variant, Test2, and the zero-knowledge variant, Test3).
The Anchor program sources are not part of the repository; only their
tests, client scripts and READMEs are.  The state machine is therefore
modelled from the design document (spec.md) and the observable behaviour
fixed by the test suites: commitments, PDA seeds and check order are taken
from the tests, everything else from the spec's lifecycle description.
-/

set_option maxRecDepth 4000
set_option linter.unusedVariables false

/-- Little-endian byte encoding of a natural number on `n` bytes
(`BN.toArrayLike(Buffer, "le", 8)` in the clients). -/
def leBytes : Nat → Nat → List Nat
  | 0, _ => []
  | n + 1, x => x % 256 :: leBytes n (x / 256)

/-- UTF-8 bytes of an ASCII string literal (`Buffer.from(s)` in the clients). -/
def strBytes (s : String) : List Nat :=
  s.data.map (fun c => c.toNat)

/-- A ledger address: the seed bytes handed to the address derivation. -/
abbrev Addr := List Nat

/-- Seed tag of the plain request-record PDA. -/
def payTag : List Nat := strBytes "pay_request"

/-- Seed tag of the plain escrow-vault PDA. -/
def escrowTag : List Nat := strBytes "escrow"

/-- Seed tag of the private-variant request-record PDA. -/
def zkPayTag : List Nat := strBytes "zk_pay_request"

/-- Seed tag of the private-variant escrow-vault PDA. -/
def zkEscrowTag : List Nat := strBytes "zk_escrow"

/-- Deterministic address derivation: the seed bytes
`tag ++ receiver (32 bytes) ++ request_id (8 bytes LE)` passed to
`findProgramAddressSync` in `Test2/app/client.ts` and the test suites.
The SDK's one-way hash of these seeds is abstracted away (spec section 9:
a pure derivation function over `(tag, receiver, request_id)`), so the
address is identified with the seed byte string itself. -/
def derive (tag : List Nat) (receiver requestId : Nat) : Addr :=
  tag ++ leBytes 32 receiver ++ leBytes 8 requestId

/-- Error taxonomy of both programs (spec section 7). -/
inductive PayError where
  | DuplicateRequest
  | InvalidRange
  | AlreadySettled
  | AmountOutOfRange
  | InvalidProof
  | UnauthorizedReceiver
  | RequestNotFound
deriving DecidableEq, Repr

/-! ### SHA-256 over byte lists

The private variant's commitment is computed with node's
`createHash('sha256')` in the Test3 suite; the verifier recomputes the
same digest.  The function is implemented here over lists of bytes
(naturals below 256), with 32-bit words as naturals reduced mod `2^32`. -/

/-- Combine the low `k` bits of two naturals bitwise with `f`. -/
def bitZip (f : Nat → Nat → Nat) : Nat → Nat → Nat → Nat
  | 0, _, _ => 0
  | k + 1, a, b => f (a % 2) (b % 2) + 2 * bitZip f k (a / 2) (b / 2)

/-- Bitwise xor on 32-bit words. -/
def xor32 (a b : Nat) : Nat := bitZip (fun x y => (x + y) % 2) 32 a b

/-- Bitwise and on 32-bit words. -/
def and32 (a b : Nat) : Nat := bitZip (fun x y => x * y) 32 a b

/-- Bitwise complement on a 32-bit word. -/
def not32 (a : Nat) : Nat := 4294967295 - a % 4294967296

/-- Addition mod `2^32`. -/
def add32 (a b : Nat) : Nat := (a + b) % 4294967296

/-- Right rotation of a 32-bit word by `n` places. -/
def rotr (n x : Nat) : Nat := x % 2 ^ n * 2 ^ (32 - n) + x / 2 ^ n

/-- Logical right shift of a 32-bit word by `n` places. -/
def shr32 (n x : Nat) : Nat := x / 2 ^ n

/-- SHA-256 big sigma 0. -/
def bSig0 (x : Nat) : Nat := xor32 (rotr 2 x) (xor32 (rotr 13 x) (rotr 22 x))

/-- SHA-256 big sigma 1. -/
def bSig1 (x : Nat) : Nat := xor32 (rotr 6 x) (xor32 (rotr 11 x) (rotr 25 x))

/-- SHA-256 small sigma 0. -/
def sSig0 (x : Nat) : Nat := xor32 (rotr 7 x) (xor32 (rotr 18 x) (shr32 3 x))

/-- SHA-256 small sigma 1. -/
def sSig1 (x : Nat) : Nat := xor32 (rotr 17 x) (xor32 (rotr 19 x) (shr32 10 x))

/-- SHA-256 choice function. -/
def ch32 (e f g : Nat) : Nat := xor32 (and32 e f) (and32 (not32 e) g)

/-- SHA-256 majority function. -/
def maj32 (a b c : Nat) : Nat :=
  xor32 (and32 a b) (xor32 (and32 a c) (and32 b c))

/-- Big-endian byte encoding of a natural number on `n` bytes. -/
def beBytes : Nat → Nat → List Nat
  | 0, _ => []
  | n + 1, x => beBytes n (x / 256) ++ [x % 256]

/-- The SHA-256 round constants, in decimal. -/
def shaK : List Nat :=
  [1116352408, 1899447441, 3049323471,
   3921009573, 961987163, 1508970993,
   2453635748, 2870763221, 3624381080,
   310598401, 607225278, 1426881987,
   1925078388, 2162078206, 2614888103,
   3248222580, 3835390401, 4022224774,
   264347078, 604807628, 770255983,
   1249150122, 1555081692, 1996064986,
   2554220882, 2821834349, 2952996808,
   3210313671, 3336571891, 3584528711,
   113926993, 338241895, 666307205,
   773529912, 1294757372, 1396182291,
   1695183700, 1986661051, 2177026350,
   2456956037, 2730485921, 2820302411,
   3259730800, 3345764771, 3516065817,
   3600352804, 4094571909, 275423344,
   430227734, 506948616, 659060556,
   883997877, 958139571, 1322822218,
   1537002063, 1747873779, 1955562222,
   2024104815, 2227730452, 2361852424,
   2428436474, 2756734187, 3204031479,
   3329325298]

/-- The SHA-256 initial hash state, in decimal. -/
def shaH0 : List Nat :=
  [1779033703, 3144134277, 1013904242,
   2773480762, 1359893119, 2600822924,
   528734635, 1541459225]

/-- SHA-256 padding: append `0x80`, zeros to 56 mod 64, then the bit
length on 8 big-endian bytes. -/
def padMsg (msg : List Nat) : List Nat :=
  msg ++ 128 :: List.replicate ((119 - msg.length % 64) % 64) 0
      ++ beBytes 8 (8 * msg.length)

/-- Group a byte list into big-endian 32-bit words. -/
def toWords : List Nat → List Nat
  | b0 :: b1 :: b2 :: b3 :: rest =>
    (((b0 * 256 + b1) * 256 + b2) * 256 + b3) :: toWords rest
  | _ => []

/-- One step of the SHA-256 message-schedule extension. -/
def wStep (w : List Nat) : List Nat :=
  let i := w.length
  w ++ [add32 (add32 (w.getD (i - 16) 0) (sSig0 (w.getD (i - 15) 0)))
           (add32 (w.getD (i - 7) 0) (sSig1 (w.getD (i - 2) 0)))]

/-- Extend the 16 block words to the 64 schedule words. -/
def buildW (w16 : List Nat) : List Nat := wStep^[48] w16

/-- One SHA-256 compression round on the eight-word working state. -/
def shaRound (k w : Nat) (s : List Nat) : List Nat :=
  match s with
  | [a, b, c, d, e, f, g, h] =>
    let t1 := add32 h (add32 (bSig1 e) (add32 (ch32 e f g) (add32 k w)))
    let t2 := add32 (bSig0 a) (maj32 a b c)
    [add32 t1 t2, a, b, c, add32 d t1, e, f, g]
  | _ => s

/-- Compress one 64-byte block into the running hash state. -/
def compressBlock (h : List Nat) (block : List Nat) : List Nat :=
  let s := (List.zip shaK (buildW (toWords block))).foldl
    (fun s kw => shaRound kw.1 kw.2 s) h
  List.zipWith add32 h s

/-- Split a byte list into 64-byte chunks. -/
def chunks64 : List Nat → List (List Nat)
  | [] => []
  | a :: l => (a :: l).take 64 :: chunks64 (l.drop 63)
termination_by l => l.length
decreasing_by simp [List.length_drop]; omega

/-- SHA-256 of a byte list, as the 32-byte digest. -/
def sha256Bytes (msg : List Nat) : List Nat :=
  ((chunks64 (padMsg msg)).foldl compressBlock shaH0).foldr
    (fun h acc => beBytes 4 h ++ acc) []

/-- Modelled from the spec: the plain variant's request record (the Anchor
account `PayRequest` of Test2, whose Rust source is not in the repository;
fields are those fetched by `tests/payment-request.ts` plus the
`settled_amount` field of spec section 3). -/
structure PayRequest where
  receiver : Nat
  requestId : Nat
  amount : Nat
  isSettled : Bool
  isSwept : Bool
  settledAmount : Nat
deriving DecidableEq, Repr

/-- Modelled from the spec: the ledger state of the plain variant, an
explicit key-value store keyed by derived address (spec section 9):
request records, escrow-vault balances, record-account lamports (the
storage deposit held by the record account) and external wallet balances. -/
structure Chain where
  requests : Addr → Option PayRequest
  vault : Addr → Nat
  acct : Addr → Nat
  wallet : Nat → Nat

/-- The empty ledger: no records, all balances zero. -/
def initChain : Chain :=
  { requests := fun _ => none
    vault := fun _ => 0
    acct := fun _ => 0
    wallet := fun _ => 0 }

/-- Modelled from the spec: `create_pay_request` of Test2 (Rust source not
in the repository).  Derives the record address from
`("pay_request", receiver, request_id)`; fails with `DuplicateRequest`
exactly when a record already exists at that address (spec section 4.1),
otherwise allocates the record and charges the receiver the storage
deposit `rent`. -/
def createPayRequest (st : Chain) (receiver requestId amount rent : Nat) :
    Except PayError Chain :=
  let addr := derive payTag receiver requestId
  match st.requests addr with
  | some _ => .error .DuplicateRequest
  | none =>
    .ok { st with
      requests := fun a => if a = addr then
          some { receiver := receiver, requestId := requestId, amount := amount
                 isSettled := false, isSwept := false, settledAmount := 0 }
        else st.requests a
      acct := fun a => if a = addr then rent else st.acct a
      wallet := fun w => if w = receiver then st.wallet w - rent else st.wallet w }

/-- Modelled from the spec: `settle_payment` of Test2 (Rust source not in
the repository).  Precondition `is_settled == false`, else
`AlreadySettled` (spec section 4.2); on success the requested amount moves
from the payer to the escrow vault derived from the stored receiver and
id, and the flag and `settled_amount` are recorded. -/
def settlePayment (st : Chain) (payer : Nat) (addr : Addr) :
    Except PayError Chain :=
  match st.requests addr with
  | none => .error .RequestNotFound
  | some r =>
    if r.isSettled then .error .AlreadySettled
    else
      let esc := derive escrowTag r.receiver r.requestId
      .ok { st with
        requests := fun a => if a = addr then
            some { r with isSettled := true, settledAmount := r.amount }
          else st.requests a
        vault := fun a => if a = esc then st.vault a + r.amount else st.vault a
        wallet := fun w => if w = payer then st.wallet w - r.amount else st.wallet w }

/-- Modelled from the spec: `sweep_funds` of Test2 (Rust source not in the
repository).  A missing record is `RequestNotFound`; a caller other than
the stored receiver is `UnauthorizedReceiver` (checked independently of
anything else, spec section 4.3); an unsettled request surfaces as a
not-found condition (spec section 8: the escrow vault is only funded at
settlement).  On success the vault is fully drained to the receiver, the
record is destroyed and its storage deposit refunded to the receiver
(spec section 4.2). -/
def sweepFunds (st : Chain) (caller : Nat) (addr : Addr) :
    Except PayError Chain :=
  match st.requests addr with
  | none => .error .RequestNotFound
  | some r =>
    if caller ≠ r.receiver then .error .UnauthorizedReceiver
    else if r.isSettled = false then .error .RequestNotFound
    else
      let esc := derive escrowTag r.receiver r.requestId
      .ok
        { requests := fun a => if a = addr then none else st.requests a
          vault := fun a => if a = esc then 0 else st.vault a
          acct := fun a => if a = addr then 0 else st.acct a
          wallet := fun w => if w = r.receiver then
              st.wallet w + st.vault esc + st.acct addr
            else st.wallet w }

/-! ### The private (zero-knowledge) variant, Test3 -/

/-- Domain-separation label of the amount commitment
(`Buffer.from('bulletproof_payment')` in the Test3 suite). -/
def paymentLabel : List Nat := strBytes "bulletproof_payment"

/-- Domain-separation label of the receiver-ownership proof
(`Buffer.from('receiver_secret')` in the Test3 suite). -/
def receiverLabel : List Nat := strBytes "receiver_secret"

/-- Commitment recomputation of the private variant's verifier:
`sha256(amount_le_8 ++ range_proof ++ "bulletproof_payment")`, the
verification formula recorded in the Test3 suite. -/
def commitOf (amount : Nat) (rangeProof : List Nat) : List Nat :=
  sha256Bytes (leBytes 8 amount ++ rangeProof ++ paymentLabel)

/-- Modelled from the spec: the private variant's request record (the
Anchor account `ZkPayRequest` of Test3, whose Rust source is not in the
repository; fields are those fetched by the Test3 suite plus
`settled_amount` and `ephemeral_pubkey` of spec section 3). -/
structure ZkPayRequest where
  receiver : Nat
  requestId : Nat
  amountCommitment : List Nat
  rangeProof : List Nat
  minAmount : Nat
  maxAmount : Nat
  ephemeralPubkey : List Nat
  isSettled : Bool
  isSwept : Bool
  settledAmount : Nat
deriving DecidableEq, Repr

/-- Modelled from the spec: the ledger state of the private variant, the
same key-value shape as the plain variant's. -/
structure ZkChain where
  requests : Addr → Option ZkPayRequest
  vault : Addr → Nat
  acct : Addr → Nat
  wallet : Nat → Nat

/-- The empty private-variant ledger. -/
def initZkChain : ZkChain :=
  { requests := fun _ => none
    vault := fun _ => 0
    acct := fun _ => 0
    wallet := fun _ => 0 }

/-- Modelled from the spec: `create_zk_pay_request` of Test3 (Rust source
not in the repository).  Fails with `DuplicateRequest` when a record
already exists at the derived address (the account-allocation check,
which precedes the instruction body), then with `InvalidRange` when
`min_amount > max_amount` (spec section 4.2); otherwise stores the
commitment, range proof, bounds and ephemeral pubkey unverified (spec
section 4.3: no verification of the commitment at creation). -/
def createZkPayRequest (st : ZkChain) (receiver requestId : Nat)
    (amountCommitment rangeProof : List Nat) (minAmount maxAmount : Nat)
    (ephemeralPubkey : List Nat) (rent : Nat) : Except PayError ZkChain :=
  let addr := derive zkPayTag receiver requestId
  match st.requests addr with
  | some _ => .error .DuplicateRequest
  | none =>
    if maxAmount < minAmount then .error .InvalidRange
    else
      .ok { st with
        requests := fun a => if a = addr then
            some { receiver := receiver, requestId := requestId
                   amountCommitment := amountCommitment
                   rangeProof := rangeProof
                   minAmount := minAmount, maxAmount := maxAmount
                   ephemeralPubkey := ephemeralPubkey
                   isSettled := false, isSwept := false, settledAmount := 0 }
          else st.requests a
        acct := fun a => if a = addr then rent else st.acct a
        wallet := fun w => if w = receiver then st.wallet w - rent else st.wallet w }

/-- Modelled from the spec: `settle_zk_payment` of Test3 (Rust source not
in the repository).  Check order fixed by the suite: `AlreadySettled`
first (state precondition, spec section 4.2), then the inclusive range
check (`AmountOutOfRange` is observed when both range and binding fail),
then the commitment binding: the digest recomputed from the claimed
amount and the stored range proof must equal the stored commitment byte
for byte, else `InvalidProof`.  The `paymentProof` argument is carried
but never inspected (the suite settles with arbitrary proof bytes). -/
def settleZkPayment (st : ZkChain) (payer : Nat) (addr : Addr)
    (amount : Nat) (paymentProof : List Nat) : Except PayError ZkChain :=
  match st.requests addr with
  | none => .error .RequestNotFound
  | some r =>
    if r.isSettled then .error .AlreadySettled
    else if amount < r.minAmount ∨ r.maxAmount < amount then
      .error .AmountOutOfRange
    else if commitOf amount r.rangeProof ≠ r.amountCommitment then
      .error .InvalidProof
    else
      let esc := derive zkEscrowTag r.receiver r.requestId
      .ok { st with
        requests := fun a => if a = addr then
            some { r with isSettled := true, settledAmount := amount }
          else st.requests a
        vault := fun a => if a = esc then st.vault a + amount else st.vault a
        wallet := fun w => if w = payer then st.wallet w - amount else st.wallet w }

/-- Modelled from the spec: `sweep_zk_funds` of Test3 (Rust source not in
the repository).  A missing record is `RequestNotFound`; a caller other
than the stored receiver is `UnauthorizedReceiver`, checked independently
of proof validity (spec section 4.3); an unsettled request surfaces as a
not-found condition (spec section 8); then the receiver-ownership proof
must be the one-way binding of the stored receiver identity with the
fixed domain label, and the supplied ephemeral secret must match the
`ephemeral_pubkey` recorded at creation (the suite's scheme: the matching
secret equals the stored pubkey bytes), else `InvalidProof`.  On success
the vault drains to the receiver, both accounts close and the deposit is
refunded. -/
def sweepZkFunds (st : ZkChain) (caller : Nat) (addr : Addr)
    (receiverProof ephemeralSecret : List Nat) : Except PayError ZkChain :=
  match st.requests addr with
  | none => .error .RequestNotFound
  | some r =>
    if caller ≠ r.receiver then .error .UnauthorizedReceiver
    else if r.isSettled = false then .error .RequestNotFound
    else if receiverProof ≠ sha256Bytes (leBytes 32 r.receiver ++ receiverLabel)
        ∨ ephemeralSecret ≠ r.ephemeralPubkey then .error .InvalidProof
    else
      let esc := derive zkEscrowTag r.receiver r.requestId
      .ok
        { requests := fun a => if a = addr then none else st.requests a
          vault := fun a => if a = esc then 0 else st.vault a
          acct := fun a => if a = addr then 0 else st.acct a
          wallet := fun w => if w = r.receiver then
              st.wallet w + st.vault esc + st.acct addr
            else st.wallet w }

/-- The plain variant's escrow-balance invariant: every live record sits
at its derived address, a settled record has `settled_amount` equal to
the requested amount, its vault holds exactly the settled amount when the
record is settled (and not yet swept — swept records no longer exist) and
zero before settlement, and the vault of any absent record is empty. -/
def ChainInv (st : Chain) : Prop :=
  (∀ a r, st.requests a = some r →
      a = derive payTag r.receiver r.requestId ∧
      (r.isSettled = true → r.settledAmount = r.amount) ∧
      st.vault (derive escrowTag r.receiver r.requestId) =
        (if r.isSettled then r.settledAmount else 0)) ∧
  (∀ rcv id, st.requests (derive payTag rcv id) = none →
      st.vault (derive escrowTag rcv id) = 0)

/-- The private variant's escrow-balance invariant. -/
def ZkChainInv (st : ZkChain) : Prop :=
  (∀ a r, st.requests a = some r →
      a = derive zkPayTag r.receiver r.requestId ∧
      st.vault (derive zkEscrowTag r.receiver r.requestId) =
        (if r.isSettled then r.settledAmount else 0)) ∧
  (∀ rcv id, st.requests (derive zkPayTag rcv id) = none →
      st.vault (derive zkEscrowTag rcv id) = 0)

/-! ### Concrete states for the witnesses -/

/-- The ledger after creating plain request `(receiver 1, id 2)` for
amount 3 with deposit 4 on the empty ledger. -/
def c1State : Chain :=
  { initChain with
    requests := fun a => if a = derive payTag 1 2 then
        some ⟨1, 2, 3, false, false, 0⟩
      else initChain.requests a
    acct := fun a => if a = derive payTag 1 2 then 4 else initChain.acct a
    wallet := fun w => if w = 1 then initChain.wallet w - 4
      else initChain.wallet w }

/-- A ledger holding one unsettled plain request of receiver 1. -/
def c3Chain : Chain :=
  { requests := fun a => if a = derive payTag 1 2 then
        some ⟨1, 2, 3, false, false, 0⟩
      else none
    vault := fun _ => 0
    acct := fun _ => 0
    wallet := fun _ => 0 }

/-- A private-variant ledger holding one unsettled request of receiver 1
with bounds `[5, 10]`. -/
def c5Chain : ZkChain :=
  { requests := fun a => if a = derive zkPayTag 1 2 then
        some ⟨1, 2, [], [], 5, 10, [], false, false, 0⟩
      else none
    vault := fun _ => 0
    acct := fun _ => 0
    wallet := fun _ => 0 }

/-- A private-variant record whose commitment is the digest of amount 6
with empty range proof. -/
def c4Rec : ZkPayRequest :=
  ⟨1, 2, commitOf 6 [], [], 5, 10, [], false, false, 0⟩

/-- A private-variant ledger holding `c4Rec`. -/
def c4Chain : ZkChain :=
  { requests := fun a => if a = derive zkPayTag 1 2 then some c4Rec else none
    vault := fun _ => 0
    acct := fun _ => 0
    wallet := fun _ => 0 }

/-- A settled plain request of receiver 1 with 3 units in escrow and a
4-unit storage deposit. -/
def c6Chain : Chain :=
  { requests := fun a => if a = derive payTag 1 2 then
        some ⟨1, 2, 3, true, false, 3⟩
      else none
    vault := fun a => if a = derive escrowTag 1 2 then 3 else 0
    acct := fun a => if a = derive payTag 1 2 then 4 else 0
    wallet := fun _ => 0 }

/-- A settled private-variant request of receiver 1 with ephemeral
pubkey `[7]`, 6 units in escrow and a 4-unit storage deposit. -/
def c6ZkChain : ZkChain :=
  { requests := fun a => if a = derive zkPayTag 1 2 then
        some ⟨1, 2, [], [], 5, 10, [7], true, false, 6⟩
      else none
    vault := fun a => if a = derive zkEscrowTag 1 2 then 6 else 0
    acct := fun a => if a = derive zkPayTag 1 2 then 4 else 0
    wallet := fun _ => 0 }

/-- A settled plain request used to exercise a full sweep. -/
def c7Chain : Chain :=
  { requests := fun a => if a = derive payTag 1 2 then
        some ⟨1, 2, 3, true, false, 3⟩
      else none
    vault := fun a => if a = derive escrowTag 1 2 then 3 else 0
    acct := fun a => if a = derive payTag 1 2 then 4 else 0
    wallet := fun _ => 0 }

/-- The ledger after receiver 1 sweeps the request of `c7Chain`. -/
def c7Swept : Chain :=
  { requests := fun a => if a = derive payTag 1 2 then none
      else c7Chain.requests a
    vault := fun a => if a = derive escrowTag 1 2 then 0 else c7Chain.vault a
    acct := fun a => if a = derive payTag 1 2 then 0 else c7Chain.acct a
    wallet := fun w => if w = 1 then
        c7Chain.wallet w + c7Chain.vault (derive escrowTag 1 2) +
          c7Chain.acct (derive payTag 1 2)
      else c7Chain.wallet w }

/-- The ledger after creating plain request `(1, 2)` on the empty ledger,
used to witness invariant preservation. -/
def c9State : Chain :=
  { initChain with
    requests := fun a => if a = derive payTag 1 2 then
        some ⟨1, 2, 3, false, false, 0⟩
      else initChain.requests a
    acct := fun a => if a = derive payTag 1 2 then 4 else initChain.acct a
    wallet := fun w => if w = 1 then initChain.wallet w - 4
      else initChain.wallet w }

/-! ### Properties of the byte encodings and of address derivation -/

theorem leBytes_length (n x : Nat) : (leBytes n x).length = n := by
  induction n generalizing x with
  | zero => rfl
  | succ n ih => simp [leBytes, ih]

theorem leBytes_inj {n x y : Nat} (h : leBytes n x = leBytes n y) :
    x % 256 ^ n = y % 256 ^ n := by
  induction n generalizing x y with
  | zero => omega
  | succ n ih =>
    simp only [leBytes, List.cons.injEq] at h
    have h2 := ih h.2
    have e1 : x % 256 ^ (n + 1) = x % 256 + 256 * (x / 256 % 256 ^ n) := by
      rw [pow_succ, mul_comm, Nat.mod_mul]
    have e2 : y % 256 ^ (n + 1) = y % 256 + 256 * (y / 256 % 256 ^ n) := by
      rw [pow_succ, mul_comm, Nat.mod_mul]
    rw [e1, e2, h.1, h2]

theorem leBytes_mod (n x : Nat) : leBytes n (x % 256 ^ n) = leBytes n x := by
  induction n generalizing x with
  | zero => rfl
  | succ n ih =>
    have e : x % 256 ^ (n + 1) = x % 256 + 256 * (x / 256 % 256 ^ n) := by
      rw [pow_succ, mul_comm, Nat.mod_mul]
    simp only [leBytes, List.cons.injEq, e]
    constructor
    · omega
    · have : (x % 256 + 256 * (x / 256 % 256 ^ n)) / 256 = x / 256 % 256 ^ n := by
        omega
      rw [this, ih]

theorem derive_length (tag : List Nat) (r i : Nat) :
    (derive tag r i).length = tag.length + 40 := by
  simp [derive, leBytes_length]

theorem derive_inj_same_tag {tag : List Nat} {r1 i1 r2 i2 : Nat}
    (h : derive tag r1 i1 = derive tag r2 i2) :
    r1 % 256 ^ 32 = r2 % 256 ^ 32 ∧ i1 % 256 ^ 8 = i2 % 256 ^ 8 := by
  unfold derive at h
  rw [List.append_assoc, List.append_assoc] at h
  have h1 := List.append_cancel_left h
  have h2 := List.append_inj h1 (by rw [leBytes_length, leBytes_length])
  exact ⟨leBytes_inj h2.1, leBytes_inj h2.2⟩

/-- Pairwise, the four namespace tags are either equal or of different
byte lengths. -/
theorem tags_len_distinct :
    ∀ t1 ∈ [payTag, escrowTag, zkPayTag, zkEscrowTag],
      ∀ t2 ∈ [payTag, escrowTag, zkPayTag, zkEscrowTag],
        t1 = t2 ∨ t1.length ≠ t2.length := by decide

/-- C8: address derivation is a deterministic pure function of
`(tag, receiver, request_id)`, and over the four namespace tags
`"pay_request"`, `"escrow"`, `"zk_pay_request"`, `"zk_escrow"` two
derived addresses coincide exactly when all three inputs coincide: equal
inputs give the identical address, and changing the tag, the receiver or
the id gives a different address, so the record and vault addresses of
the two variants never collide. -/
theorem address_derivation_injective :
    ∀ t1 ∈ [payTag, escrowTag, zkPayTag, zkEscrowTag],
      ∀ t2 ∈ [payTag, escrowTag, zkPayTag, zkEscrowTag],
        ∀ r1 i1 r2 i2 : Nat, r1 < 256 ^ 32 → i1 < 256 ^ 8 →
          r2 < 256 ^ 32 → i2 < 256 ^ 8 →
          (derive t1 r1 i1 = derive t2 r2 i2 ↔
            t1 = t2 ∧ r1 = r2 ∧ i1 = i2) := by
  intro t1 ht1 t2 ht2 r1 i1 r2 i2 hr1 hi1 hr2 hi2
  rcases tags_len_distinct t1 ht1 t2 ht2 with heq | hne
  · subst heq
    constructor
    · intro h
      obtain ⟨hr, hi⟩ := derive_inj_same_tag h
      rw [Nat.mod_eq_of_lt hr1, Nat.mod_eq_of_lt hr2] at hr
      rw [Nat.mod_eq_of_lt hi1, Nat.mod_eq_of_lt hi2] at hi
      exact ⟨rfl, hr, hi⟩
    · rintro ⟨-, rfl, rfl⟩
      rfl
  · constructor
    · intro h
      have := congrArg List.length h
      rw [derive_length, derive_length] at this
      omega
    · rintro ⟨rfl, -, -⟩
      exact absurd rfl hne

/-- Witness for C8 at concrete inputs: the plain request tag with
`(receiver, id) = (1, 2)` derives an address equal to itself and
different from the escrow tag's address on the same inputs. -/
theorem address_derivation_injective_witness :
    payTag ∈ [payTag, escrowTag, zkPayTag, zkEscrowTag] ∧
    escrowTag ∈ [payTag, escrowTag, zkPayTag, zkEscrowTag] ∧
    (1 : Nat) < 256 ^ 32 ∧ (2 : Nat) < 256 ^ 8 ∧
    (derive payTag 1 2 = derive payTag 1 2 ↔
      payTag = payTag ∧ (1 : Nat) = 1 ∧ (2 : Nat) = 2) ∧
    (derive payTag 1 2 = derive escrowTag 1 2 ↔
      payTag = escrowTag ∧ (1 : Nat) = 1 ∧ (2 : Nat) = 2) := by
  refine ⟨by decide, by decide, by norm_num, by norm_num, ?_, ?_⟩
  · exact address_derivation_injective payTag (by decide) payTag (by decide)
      1 2 1 2 (by norm_num) (by norm_num) (by norm_num) (by norm_num)
  · exact address_derivation_injective payTag (by decide) escrowTag (by decide)
      1 2 1 2 (by norm_num) (by norm_num) (by norm_num) (by norm_num)

/-- Any equality of derived addresses under one tag transfers to any other
tag: the seeds encode the same `(receiver mod 2^256, id mod 2^64)`. -/
theorem derive_mod (t : List Nat) (r i : Nat) :
    derive t (r % 256 ^ 32) (i % 256 ^ 8) = derive t r i := by
  unfold derive
  rw [leBytes_mod, leBytes_mod]

theorem derive_congr {t1 t2 : List Nat} {r1 i1 r2 i2 : Nat}
    (h : derive t1 r1 i1 = derive t1 r2 i2) :
    derive t2 r1 i1 = derive t2 r2 i2 := by
  obtain ⟨hr, hi⟩ := derive_inj_same_tag h
  rw [← derive_mod t2 r1 i1, ← derive_mod t2 r2 i2, hr, hi]

/-! ### Claim theorems -/

/-- C2: for a `(receiver, request_id)` pair whose derived record address
is unoccupied, `CreateRequest` succeeds and installs the fresh record; a
second `CreateRequest` with the same pair then fails with
`DuplicateRequest` whatever the other arguments, and in general plain
creation fails with `DuplicateRequest` exactly when a record already sits
at the derived address — occupancy of the derived address is the whole
uniqueness check.  The private variant rejects an occupied address the
same way. -/
theorem create_request_unique (st : Chain) (rcv id amt rent : Nat)
    (hfresh : st.requests (derive payTag rcv id) = none) :
    ∃ st1, createPayRequest st rcv id amt rent = .ok st1 ∧
      st1.requests (derive payTag rcv id) =
        some ⟨rcv, id, amt, false, false, 0⟩ ∧
      (∀ amt2 rent2, createPayRequest st1 rcv id amt2 rent2 =
        .error .DuplicateRequest) ∧
      (∀ st2 : Chain, ∀ amt3 rent3 : Nat,
        createPayRequest st2 rcv id amt3 rent3 = .error .DuplicateRequest ↔
          st2.requests (derive payTag rcv id) ≠ none) ∧
      (∀ (zst : ZkChain) (zr : ZkPayRequest),
        zst.requests (derive zkPayTag rcv id) = some zr →
        ∀ c rp mn mx ep rent4, createZkPayRequest zst rcv id c rp mn mx ep rent4 =
          .error .DuplicateRequest) := by
  refine ⟨_, by rw [createPayRequest, hfresh], by simp, ?_, ?_, ?_⟩
  · intro amt2 rent2
    rw [createPayRequest]
    simp
  · intro st2 amt3 rent3
    rw [createPayRequest]
    cases h2 : st2.requests (derive payTag rcv id) <;> simp [h2]
  · intro zst zr hz c rp mn mx ep rent4
    rw [createZkPayRequest, hz]

/-- C1: on a freshly created request the first `SettlePayment` succeeds,
sets `is_settled` and credits the escrow vault with the requested amount;
on the resulting state every further `SettlePayment`, by any payer, fails
with `AlreadySettled` — and in general, in either variant, settlement of
a record whose `is_settled` flag is already true fails with
`AlreadySettled` regardless of the caller and arguments. -/
theorem settle_payment_at_most_once (st st1 : Chain)
    (rcv id amt rent payer : Nat)
    (hc : createPayRequest st rcv id amt rent = .ok st1) :
    ∃ st2, settlePayment st1 payer (derive payTag rcv id) = .ok st2 ∧
      (∃ r, st2.requests (derive payTag rcv id) = some r ∧
        r.isSettled = true ∧ r.settledAmount = amt) ∧
      st2.vault (derive escrowTag rcv id) =
        st1.vault (derive escrowTag rcv id) + amt ∧
      (∀ payer2, settlePayment st2 payer2 (derive payTag rcv id) =
        .error .AlreadySettled) ∧
      (∀ (st3 : Chain) (addr : Addr) (r : PayRequest) (payer3 : Nat),
        st3.requests addr = some r → r.isSettled = true →
        settlePayment st3 payer3 addr = .error .AlreadySettled) ∧
      (∀ (zst : ZkChain) (addr : Addr) (zr : ZkPayRequest) (payer4 amt4 : Nat)
          (proof4 : List Nat),
        zst.requests addr = some zr → zr.isSettled = true →
        settleZkPayment zst payer4 addr amt4 proof4 =
          .error .AlreadySettled) := by
  have hst1 : st1.requests (derive payTag rcv id) =
      some ⟨rcv, id, amt, false, false, 0⟩ := by
    rw [createPayRequest] at hc
    rcases h0 : st.requests (derive payTag rcv id) with - | r0
    · rw [h0] at hc
      cases hc
      simp
    · rw [h0] at hc
      cases hc
  have hset : settlePayment st1 payer (derive payTag rcv id) =
      .ok { st1 with
        requests := fun a => if a = derive payTag rcv id then
            some ⟨rcv, id, amt, true, false, amt⟩
          else st1.requests a
        vault := fun a => if a = derive escrowTag rcv id then st1.vault a + amt
          else st1.vault a
        wallet := fun w => if w = payer then st1.wallet w - amt
          else st1.wallet w } := by
    rw [settlePayment, hst1]
    rfl
  refine ⟨_, hset, ?_, ?_, ?_, ?_, ?_⟩
  · exact ⟨⟨rcv, id, amt, true, false, amt⟩, by simp, rfl, rfl⟩
  · simp
  · intro payer2
    rw [settlePayment]
    simp
  · intro st3 addr r payer3 hr hs
    rw [settlePayment, hr]
    simp [hs]
  · intro zst addr zr payer4 amt4 proof4 hr hs
    rw [settleZkPayment, hr]
    simp [hs]

/-- C3: in both variants, a `SweepFunds` call whose caller identity
differs from the stored receiver fails with `UnauthorizedReceiver`, for
every record state (settled or not) and every choice of the remaining
inputs (receiver proof and ephemeral secret in the private variant): the
identity check is made before and independently of proof verification. -/
theorem sweep_wrong_receiver_unauthorized :
    (∀ (st : Chain) (addr : Addr) (r : PayRequest) (caller : Nat),
      st.requests addr = some r → caller ≠ r.receiver →
      sweepFunds st caller addr = .error .UnauthorizedReceiver) ∧
    (∀ (st : ZkChain) (addr : Addr) (r : ZkPayRequest) (caller : Nat)
        (receiverProof ephemeralSecret : List Nat),
      st.requests addr = some r → caller ≠ r.receiver →
      sweepZkFunds st caller addr receiverProof ephemeralSecret =
        .error .UnauthorizedReceiver) := by
  constructor
  · intro st addr r caller hr hne
    rw [sweepFunds, hr]
    simp [hne]
  · intro st addr r caller receiverProof ephemeralSecret hr hne
    rw [sweepZkFunds, hr]
    simp [hne]

/-- C5: in the private variant, a settlement whose claimed amount lies
outside the inclusive stored range `[min_amount, max_amount]` fails with
`AmountOutOfRange` for every payer and every payment proof — the range
check fires before the commitment binding is even consulted, so it is
independent of proof validity. -/
theorem settle_zk_amount_out_of_range (st : ZkChain) (addr : Addr)
    (r : ZkPayRequest) (payer amt : Nat) (proof : List Nat)
    (hr : st.requests addr = some r) (hns : r.isSettled = false)
    (hout : amt < r.minAmount ∨ r.maxAmount < amt) :
    settleZkPayment st payer addr amt proof = .error .AmountOutOfRange := by
  rw [settleZkPayment, hr]
  simp [hns, hout]

/-- C4: in the private variant, the settlement verifier recomputes the
commitment as the SHA-256 digest of the claimed amount's 8-byte
little-endian encoding, the stored range-proof bytes and the fixed
domain-separation label `"bulletproof_payment"` (`commitOf`); with the
request unsettled and the amount in range, settlement succeeds when the
recomputed digest equals the stored `amount_commitment` byte for byte and
fails with `InvalidProof` on any mismatch — there is no third outcome. -/
theorem settle_zk_commitment_binding (st : ZkChain) (addr : Addr)
    (r : ZkPayRequest) (payer amt : Nat) (proof : List Nat)
    (hr : st.requests addr = some r) (hns : r.isSettled = false)
    (hlo : r.minAmount ≤ amt) (hhi : amt ≤ r.maxAmount) :
    (commitOf amt r.rangeProof = r.amountCommitment →
      ∃ st2, settleZkPayment st payer addr amt proof = .ok st2 ∧
        st2.requests addr = some { r with isSettled := true
                                          settledAmount := amt }) ∧
    (commitOf amt r.rangeProof ≠ r.amountCommitment →
      settleZkPayment st payer addr amt proof = .error .InvalidProof) := by
  constructor
  · intro hcommit
    rw [settleZkPayment, hr]
    simp only [hns, Bool.false_eq_true, if_false]
    rw [if_neg (by omega), if_neg (by simp [hcommit])]
    exact ⟨_, rfl, by simp⟩
  · intro hcommit
    rw [settleZkPayment, hr]
    simp only [hns, Bool.false_eq_true, if_false]
    rw [if_neg (by omega), if_pos hcommit]

/-- C6: in both variants, a sweep by the stored receiver of a settled
request (with, in the private variant, the matching receiver-ownership
proof and the ephemeral secret recorded at creation) succeeds, leaves the
escrow vault at balance zero, removes the request record (it can no
longer be fetched), zeroes the record account and pays the receiver the
whole vault balance plus the record's storage deposit. -/
theorem sweep_success_drains :
    (∀ (st : Chain) (addr : Addr) (r : PayRequest),
      st.requests addr = some r → r.isSettled = true →
      ∃ st2, sweepFunds st r.receiver addr = .ok st2 ∧
        st2.vault (derive escrowTag r.receiver r.requestId) = 0 ∧
        st2.requests addr = none ∧
        st2.acct addr = 0 ∧
        st2.wallet r.receiver = st.wallet r.receiver +
          st.vault (derive escrowTag r.receiver r.requestId) + st.acct addr) ∧
    (∀ (st : ZkChain) (addr : Addr) (r : ZkPayRequest) (secret : List Nat),
      st.requests addr = some r → r.isSettled = true →
      secret = r.ephemeralPubkey →
      ∃ st2, sweepZkFunds st r.receiver addr
          (sha256Bytes (leBytes 32 r.receiver ++ receiverLabel)) secret =
            .ok st2 ∧
        st2.vault (derive zkEscrowTag r.receiver r.requestId) = 0 ∧
        st2.requests addr = none ∧
        st2.acct addr = 0 ∧
        st2.wallet r.receiver = st.wallet r.receiver +
          st.vault (derive zkEscrowTag r.receiver r.requestId) + st.acct addr) := by
  constructor
  · intro st addr r hr hs
    rw [sweepFunds, hr]
    simp only [ne_eq, not_true_eq_false, if_false, hs, if_neg]
    refine ⟨_, rfl, by simp, by simp, by simp, by simp⟩
  · intro st addr r secret hr hs hsec
    rw [sweepZkFunds, hr]
    simp only [ne_eq, not_true_eq_false, if_false, hs, hsec, not_false_eq_true,
      or_self, if_neg]
    refine ⟨_, rfl, by simp, by simp, by simp, by simp⟩

/-- C7: plain-variant sweep is exactly-once and its failures are
not-found-shaped: a sweep by the stored receiver before settlement fails
with `RequestNotFound` (the vault is only funded and the record only
sweepable once settled); a successful sweep removes the record, and any
further sweep of the same address — by any caller — fails with
`RequestNotFound` because the record no longer exists, which is also how
sweeping a never-created address fails. -/
theorem sweep_exactly_once :
    (∀ (st : Chain) (addr : Addr) (r : PayRequest),
      st.requests addr = some r → r.isSettled = false →
      sweepFunds st r.receiver addr = .error .RequestNotFound) ∧
    (∀ (st st2 : Chain) (addr : Addr) (caller : Nat),
      sweepFunds st caller addr = .ok st2 →
      st2.requests addr = none ∧
      ∀ caller2, sweepFunds st2 caller2 addr = .error .RequestNotFound) ∧
    (∀ (st : Chain) (addr : Addr), st.requests addr = none →
      ∀ caller, sweepFunds st caller addr = .error .RequestNotFound) := by
  refine ⟨?_, ?_, ?_⟩
  · intro st addr r hr hs
    rw [sweepFunds, hr]
    simp [hs]
  · intro st st2 addr caller hc
    rw [sweepFunds] at hc
    split at hc
    · cases hc
    · split at hc
      · cases hc
      · split at hc
        · cases hc
        · cases hc
          have hnone : (fun a => if a = addr then none
              else st.requests a) addr = (none : Option PayRequest) := by simp
          refine ⟨hnone, fun caller2 => ?_⟩
          rw [sweepFunds]
          rw [show ({ requests := fun a => if a = addr then none
                else st.requests a, vault := _, acct := _, wallet := _ } :
              Chain).requests addr = none from hnone]
  · intro st addr h0 caller
    rw [sweepFunds, h0]

/-- C10: the accept/reject outcome of `settle_zk_payment` does not depend
on the supplied `payment_proof` bytes: on identical states and identical
claimed amounts, two settlement calls differing only in the payment proof
return the same result — binding is decided solely by recomputing the
commitment from the claimed amount and the stored range proof, so
arbitrary proof bytes succeed whenever the commitment and range checks
pass. -/
theorem settle_zk_payment_proof_irrelevant (st : ZkChain) (payer : Nat)
    (addr : Addr) (amt : Nat) (p1 p2 : List Nat) :
    settleZkPayment st payer addr amt p1 =
      settleZkPayment st payer addr amt p2 := rfl

/-! ### The escrow-vault balance invariant (C9) -/

theorem chainInv_init : ChainInv initChain := by
  constructor
  · intro a r h
    cases h
  · intro rcv id h
    rfl

theorem chainInv_create {st st' : Chain} {rcv id amt rent : Nat}
    (hInv : ChainInv st)
    (hc : createPayRequest st rcv id amt rent = .ok st') : ChainInv st' := by
  rw [createPayRequest] at hc
  split at hc
  · cases hc
  · rename_i h0
    cases hc
    constructor
    · intro a r ha
      dsimp only at ha ⊢
      by_cases hae : a = derive payTag rcv id
      · subst hae
        rw [if_pos rfl] at ha
        cases ha
        refine ⟨rfl, by simp, ?_⟩
        dsimp only
        simpa using hInv.2 rcv id h0
      · rw [if_neg hae] at ha
        exact hInv.1 a r ha
    · intro rcv' id' h'
      dsimp only at h' ⊢
      by_cases hae : derive payTag rcv' id' = derive payTag rcv id
      · rw [if_pos hae] at h'
        cases h'
      · rw [if_neg hae] at h'
        exact hInv.2 rcv' id' h'

theorem chainInv_settle {st st' : Chain} {payer : Nat} {addr : Addr}
    (hInv : ChainInv st)
    (hc : settlePayment st payer addr = .ok st') : ChainInv st' := by
  rw [settlePayment] at hc
  split at hc
  · cases hc
  · rename_i r h0
    split at hc
    · cases hc
    · rename_i hs
      cases hc
      obtain ⟨haddr, hsa, hv⟩ := hInv.1 addr r h0
      rw [if_neg hs] at hv
      constructor
      · intro a q ha
        dsimp only at ha ⊢
        by_cases hae : a = addr
        · subst hae
          rw [if_pos rfl] at ha
          cases ha
          refine ⟨haddr, fun _ => rfl, ?_⟩
          dsimp only
          simp [hv]
        · rw [if_neg hae] at ha
          obtain ⟨haq, hsq, hvq⟩ := hInv.1 a q ha
          refine ⟨haq, hsq, ?_⟩
          dsimp only
          have hne : derive escrowTag q.receiver q.requestId ≠
              derive escrowTag r.receiver r.requestId := fun hesc =>
            hae (haq.trans (derive_congr hesc) |>.trans haddr.symm)
          rw [if_neg hne]
          exact hvq
      · intro rcv' id' h'
        dsimp only at h' ⊢
        by_cases hae : derive payTag rcv' id' = addr
        · rw [if_pos hae] at h'
          cases h'
        · rw [if_neg hae] at h'
          have hne : derive escrowTag rcv' id' ≠
              derive escrowTag r.receiver r.requestId := fun hesc =>
            hae ((derive_congr hesc).trans haddr.symm)
          rw [if_neg hne]
          exact hInv.2 rcv' id' h'

theorem chainInv_sweep {st st' : Chain} {caller : Nat} {addr : Addr}
    (hInv : ChainInv st)
    (hc : sweepFunds st caller addr = .ok st') : ChainInv st' := by
  rw [sweepFunds] at hc
  split at hc
  · cases hc
  · rename_i r h0
    split at hc
    · cases hc
    · split at hc
      · cases hc
      · cases hc
        obtain ⟨haddr, hsa, hv⟩ := hInv.1 addr r h0
        constructor
        · intro a q ha
          dsimp only at ha ⊢
          by_cases hae : a = addr
          · subst hae
            rw [if_pos rfl] at ha
            cases ha
          · rw [if_neg hae] at ha
            obtain ⟨haq, hsq, hvq⟩ := hInv.1 a q ha
            refine ⟨haq, hsq, ?_⟩
            have hne : derive escrowTag q.receiver q.requestId ≠
                derive escrowTag r.receiver r.requestId := fun hesc =>
              hae (haq.trans (derive_congr hesc) |>.trans haddr.symm)
            rw [if_neg hne]
            exact hvq
        · intro rcv' id' h'
          dsimp only at h' ⊢
          by_cases hesc : derive escrowTag rcv' id' =
              derive escrowTag r.receiver r.requestId
          · rw [if_pos hesc]
          · rw [if_neg hesc]
            by_cases hae : derive payTag rcv' id' = addr
            · exact absurd (derive_congr (hae.trans haddr)) hesc
            · rw [if_neg hae] at h'
              exact hInv.2 rcv' id' h'

theorem zkChainInv_init : ZkChainInv initZkChain := by
  constructor
  · intro a r h
    cases h
  · intro rcv id h
    rfl

theorem zkChainInv_create {st st' : ZkChain} {rcv id : Nat}
    {c rp : List Nat} {mn mx : Nat} {ep : List Nat} {rent : Nat}
    (hInv : ZkChainInv st)
    (hc : createZkPayRequest st rcv id c rp mn mx ep rent = .ok st') :
    ZkChainInv st' := by
  rw [createZkPayRequest] at hc
  split at hc
  · cases hc
  · rename_i h0
    split at hc
    · cases hc
    · cases hc
      constructor
      · intro a r ha
        dsimp only at ha ⊢
        by_cases hae : a = derive zkPayTag rcv id
        · subst hae
          rw [if_pos rfl] at ha
          cases ha
          refine ⟨rfl, ?_⟩
          dsimp only
          simpa using hInv.2 rcv id h0
        · rw [if_neg hae] at ha
          exact hInv.1 a r ha
      · intro rcv' id' h'
        dsimp only at h' ⊢
        by_cases hae : derive zkPayTag rcv' id' = derive zkPayTag rcv id
        · rw [if_pos hae] at h'
          cases h'
        · rw [if_neg hae] at h'
          exact hInv.2 rcv' id' h'

theorem zkChainInv_settle {st st' : ZkChain} {payer : Nat} {addr : Addr}
    {amt : Nat} {proof : List Nat}
    (hInv : ZkChainInv st)
    (hc : settleZkPayment st payer addr amt proof = .ok st') :
    ZkChainInv st' := by
  rw [settleZkPayment] at hc
  split at hc
  · cases hc
  · rename_i r h0
    split at hc
    · cases hc
    · rename_i hs
      split at hc
      · cases hc
      · split at hc
        · cases hc
        · cases hc
          obtain ⟨haddr, hv⟩ := hInv.1 addr r h0
          rw [if_neg hs] at hv
          constructor
          · intro a q ha
            dsimp only at ha ⊢
            by_cases hae : a = addr
            · subst hae
              rw [if_pos rfl] at ha
              cases ha
              refine ⟨haddr, ?_⟩
              dsimp only
              simp [hv]
            · rw [if_neg hae] at ha
              obtain ⟨haq, hvq⟩ := hInv.1 a q ha
              refine ⟨haq, ?_⟩
              dsimp only
              have hne : derive zkEscrowTag q.receiver q.requestId ≠
                  derive zkEscrowTag r.receiver r.requestId := fun hesc =>
                hae (haq.trans (derive_congr hesc) |>.trans haddr.symm)
              rw [if_neg hne]
              exact hvq
          · intro rcv' id' h'
            dsimp only at h' ⊢
            by_cases hae : derive zkPayTag rcv' id' = addr
            · rw [if_pos hae] at h'
              cases h'
            · rw [if_neg hae] at h'
              have hne : derive zkEscrowTag rcv' id' ≠
                  derive zkEscrowTag r.receiver r.requestId := fun hesc =>
                hae ((derive_congr hesc).trans haddr.symm)
              rw [if_neg hne]
              exact hInv.2 rcv' id' h'

theorem zkChainInv_sweep {st st' : ZkChain} {caller : Nat} {addr : Addr}
    {receiverProof ephemeralSecret : List Nat}
    (hInv : ZkChainInv st)
    (hc : sweepZkFunds st caller addr receiverProof ephemeralSecret =
      .ok st') : ZkChainInv st' := by
  rw [sweepZkFunds] at hc
  split at hc
  · cases hc
  · rename_i r h0
    split at hc
    · cases hc
    · split at hc
      · cases hc
      · split at hc
        · cases hc
        · cases hc
          obtain ⟨haddr, hv⟩ := hInv.1 addr r h0
          constructor
          · intro a q ha
            dsimp only at ha ⊢
            by_cases hae : a = addr
            · subst hae
              rw [if_pos rfl] at ha
              cases ha
            · rw [if_neg hae] at ha
              obtain ⟨haq, hvq⟩ := hInv.1 a q ha
              refine ⟨haq, ?_⟩
              have hne : derive zkEscrowTag q.receiver q.requestId ≠
                  derive zkEscrowTag r.receiver r.requestId := fun hesc =>
                hae (haq.trans (derive_congr hesc) |>.trans haddr.symm)
              rw [if_neg hne]
              exact hvq
          · intro rcv' id' h'
            dsimp only at h' ⊢
            by_cases hesc : derive zkEscrowTag rcv' id' =
                derive zkEscrowTag r.receiver r.requestId
            · rw [if_pos hesc]
            · rw [if_neg hesc]
              by_cases hae : derive zkPayTag rcv' id' = addr
              · exact absurd (derive_congr (hae.trans haddr)) hesc
              · rw [if_neg hae] at h'
                exact hInv.2 rcv' id' h'

/-- C9: the escrow-balance invariant holds of the initial (empty) ledger
of both variants and is preserved by every successful Create, Settle and
Sweep transition, so it holds at every reachable state: each request's
vault is zero before its first settlement and after a successful sweep,
and holds exactly the settled amount (which in the plain variant equals
the requested amount) strictly between settlement and sweep. -/
theorem escrow_balance_invariant :
    ChainInv initChain ∧ ZkChainInv initZkChain ∧
    (∀ (st st' : Chain) (rcv id amt rent : Nat), ChainInv st →
      createPayRequest st rcv id amt rent = .ok st' → ChainInv st') ∧
    (∀ (st st' : Chain) (payer : Nat) (addr : Addr), ChainInv st →
      settlePayment st payer addr = .ok st' → ChainInv st') ∧
    (∀ (st st' : Chain) (caller : Nat) (addr : Addr), ChainInv st →
      sweepFunds st caller addr = .ok st' → ChainInv st') ∧
    (∀ (st st' : ZkChain) (rcv id : Nat) (c rp : List Nat) (mn mx : Nat)
        (ep : List Nat) (rent : Nat), ZkChainInv st →
      createZkPayRequest st rcv id c rp mn mx ep rent = .ok st' →
      ZkChainInv st') ∧
    (∀ (st st' : ZkChain) (payer : Nat) (addr : Addr) (amt : Nat)
        (proof : List Nat), ZkChainInv st →
      settleZkPayment st payer addr amt proof = .ok st' → ZkChainInv st') ∧
    (∀ (st st' : ZkChain) (caller : Nat) (addr : Addr)
        (receiverProof ephemeralSecret : List Nat), ZkChainInv st →
      sweepZkFunds st caller addr receiverProof ephemeralSecret = .ok st' →
      ZkChainInv st') :=
  ⟨chainInv_init, zkChainInv_init,
   fun _ _ _ _ _ _ h hc => chainInv_create h hc,
   fun _ _ _ _ h hc => chainInv_settle h hc,
   fun _ _ _ _ h hc => chainInv_sweep h hc,
   fun _ _ _ _ _ _ _ _ _ _ h hc => zkChainInv_create h hc,
   fun _ _ _ _ _ _ h hc => zkChainInv_settle h hc,
   fun _ _ _ _ _ _ h hc => zkChainInv_sweep h hc⟩

/-! ### Witnesses at concrete inputs -/

/-- Witness for C2: on the empty ledger the pair `(1, 2)` is fresh, the
first creation succeeds and the duplicate behaviour follows. -/
theorem create_request_unique_witness :
    initChain.requests (derive payTag 1 2) = none ∧
    (∃ st1, createPayRequest initChain 1 2 3 4 = .ok st1 ∧
      st1.requests (derive payTag 1 2) = some ⟨1, 2, 3, false, false, 0⟩ ∧
      (∀ amt2 rent2, createPayRequest st1 1 2 amt2 rent2 =
        .error .DuplicateRequest) ∧
      (∀ st2 : Chain, ∀ amt3 rent3 : Nat,
        createPayRequest st2 1 2 amt3 rent3 = .error .DuplicateRequest ↔
          st2.requests (derive payTag 1 2) ≠ none) ∧
      (∀ (zst : ZkChain) (zr : ZkPayRequest),
        zst.requests (derive zkPayTag 1 2) = some zr →
        ∀ c rp mn mx ep rent4,
          createZkPayRequest zst 1 2 c rp mn mx ep rent4 =
            .error .DuplicateRequest)) :=
  ⟨rfl, create_request_unique initChain 1 2 3 4 rfl⟩

/-- Witness for C1: creating request `(1, 2)` for amount 3 on the empty
ledger and settling it once with payer 9. -/
theorem settle_payment_at_most_once_witness :
    createPayRequest initChain 1 2 3 4 = .ok c1State ∧
    (∃ st2, settlePayment c1State 9 (derive payTag 1 2) = .ok st2 ∧
      (∃ r, st2.requests (derive payTag 1 2) = some r ∧
        r.isSettled = true ∧ r.settledAmount = 3) ∧
      st2.vault (derive escrowTag 1 2) =
        c1State.vault (derive escrowTag 1 2) + 3 ∧
      (∀ payer2, settlePayment st2 payer2 (derive payTag 1 2) =
        .error .AlreadySettled) ∧
      (∀ (st3 : Chain) (addr : Addr) (r : PayRequest) (payer3 : Nat),
        st3.requests addr = some r → r.isSettled = true →
        settlePayment st3 payer3 addr = .error .AlreadySettled) ∧
      (∀ (zst : ZkChain) (addr : Addr) (zr : ZkPayRequest)
          (payer4 amt4 : Nat) (proof4 : List Nat),
        zst.requests addr = some zr → zr.isSettled = true →
        settleZkPayment zst payer4 addr amt4 proof4 =
          .error .AlreadySettled)) :=
  ⟨rfl, settle_payment_at_most_once initChain c1State 1 2 3 4 9 rfl⟩

/-- Witness for C3: caller 5 is not the stored receiver 1 and is turned
away as unauthorized. -/
theorem sweep_wrong_receiver_unauthorized_witness :
    c3Chain.requests (derive payTag 1 2) = some ⟨1, 2, 3, false, false, 0⟩ ∧
    (5 : Nat) ≠ (1 : Nat) ∧
    sweepFunds c3Chain 5 (derive payTag 1 2) =
      .error .UnauthorizedReceiver :=
  ⟨by simp [c3Chain], by decide,
    sweep_wrong_receiver_unauthorized.1 c3Chain (derive payTag 1 2)
      ⟨1, 2, 3, false, false, 0⟩ 5 (by simp [c3Chain]) (by decide)⟩

/-- Witness for C5: amount 20 lies outside the stored range `[5, 10]` and
settlement is rejected as out of range. -/
theorem settle_zk_amount_out_of_range_witness :
    c5Chain.requests (derive zkPayTag 1 2) =
      some ⟨1, 2, [], [], 5, 10, [], false, false, 0⟩ ∧
    ((20 : Nat) < 5 ∨ (10 : Nat) < 20) ∧
    settleZkPayment c5Chain 9 (derive zkPayTag 1 2) 20 [1] =
      .error .AmountOutOfRange :=
  ⟨by simp [c5Chain], by decide,
    settle_zk_amount_out_of_range c5Chain (derive zkPayTag 1 2)
      ⟨1, 2, [], [], 5, 10, [], false, false, 0⟩ 9 20 [1]
      (by simp [c5Chain]) rfl (by decide)⟩

/-- Witness for C4: the request of `c4Chain` stores the digest of amount
6, which is in range, so the binding dichotomy applies at amount 6. -/
theorem settle_zk_commitment_binding_witness :
    c4Chain.requests (derive zkPayTag 1 2) = some c4Rec ∧
    c4Rec.isSettled = false ∧ c4Rec.minAmount ≤ 6 ∧ 6 ≤ c4Rec.maxAmount ∧
    ((commitOf 6 c4Rec.rangeProof = c4Rec.amountCommitment →
      ∃ st2, settleZkPayment c4Chain 9 (derive zkPayTag 1 2) 6 [1] =
          .ok st2 ∧
        st2.requests (derive zkPayTag 1 2) =
          some { c4Rec with isSettled := true, settledAmount := 6 }) ∧
    (commitOf 6 c4Rec.rangeProof ≠ c4Rec.amountCommitment →
      settleZkPayment c4Chain 9 (derive zkPayTag 1 2) 6 [1] =
        .error .InvalidProof)) :=
  ⟨by simp [c4Chain], rfl, by decide, by decide,
    settle_zk_commitment_binding c4Chain (derive zkPayTag 1 2) c4Rec 9 6 [1]
      (by simp [c4Chain]) rfl (by decide) (by decide)⟩

/-- Witness for C6: receiver 1 sweeps the settled plain request of
`c6Chain` and the settled private request of `c6ZkChain`. -/
theorem sweep_success_drains_witness :
    c6Chain.requests (derive payTag 1 2) = some ⟨1, 2, 3, true, false, 3⟩ ∧
    c6ZkChain.requests (derive zkPayTag 1 2) =
      some ⟨1, 2, [], [], 5, 10, [7], true, false, 6⟩ ∧
    (∃ st2, sweepFunds c6Chain 1 (derive payTag 1 2) = .ok st2 ∧
      st2.vault (derive escrowTag 1 2) = 0 ∧
      st2.requests (derive payTag 1 2) = none ∧
      st2.acct (derive payTag 1 2) = 0 ∧
      st2.wallet 1 = c6Chain.wallet 1 +
        c6Chain.vault (derive escrowTag 1 2) +
          c6Chain.acct (derive payTag 1 2)) ∧
    (∃ st2, sweepZkFunds c6ZkChain 1 (derive zkPayTag 1 2)
        (sha256Bytes (leBytes 32 1 ++ receiverLabel)) [7] = .ok st2 ∧
      st2.vault (derive zkEscrowTag 1 2) = 0 ∧
      st2.requests (derive zkPayTag 1 2) = none ∧
      st2.acct (derive zkPayTag 1 2) = 0 ∧
      st2.wallet 1 = c6ZkChain.wallet 1 +
        c6ZkChain.vault (derive zkEscrowTag 1 2) +
          c6ZkChain.acct (derive zkPayTag 1 2)) :=
  ⟨by simp [c6Chain], by simp [c6ZkChain],
    sweep_success_drains.1 c6Chain (derive payTag 1 2)
      ⟨1, 2, 3, true, false, 3⟩ (by simp [c6Chain]) rfl,
    sweep_success_drains.2 c6ZkChain (derive zkPayTag 1 2)
      ⟨1, 2, [], [], 5, 10, [7], true, false, 6⟩ [7]
      (by simp [c6ZkChain]) rfl rfl⟩

/-- Witness for C7: the receiver's sweep of the unsettled request of
`c3Chain` is not-found; sweeping `c7Chain` succeeds and a repeat sweep of
the closed record is not-found, as is sweeping a never-created address. -/
theorem sweep_exactly_once_witness :
    c3Chain.requests (derive payTag 1 2) = some ⟨1, 2, 3, false, false, 0⟩ ∧
    sweepFunds c3Chain 1 (derive payTag 1 2) = .error .RequestNotFound ∧
    sweepFunds c7Chain 1 (derive payTag 1 2) = .ok c7Swept ∧
    c7Swept.requests (derive payTag 1 2) = none ∧
    (∀ caller2, sweepFunds c7Swept caller2 (derive payTag 1 2) =
      .error .RequestNotFound) ∧
    initChain.requests (derive payTag 1 2) = none ∧
    sweepFunds initChain 9 (derive payTag 1 2) = .error .RequestNotFound :=
  ⟨by simp [c3Chain],
    sweep_exactly_once.1 c3Chain (derive payTag 1 2)
      ⟨1, 2, 3, false, false, 0⟩ (by simp [c3Chain]) rfl,
    rfl,
    (sweep_exactly_once.2.1 c7Chain c7Swept (derive payTag 1 2) 1 rfl).1,
    (sweep_exactly_once.2.1 c7Chain c7Swept (derive payTag 1 2) 1 rfl).2,
    rfl,
    sweep_exactly_once.2.2 initChain (derive payTag 1 2) rfl 9⟩

/-- Witness for C9: the invariant holds of the empty ledger and survives
the creation of request `(1, 2)`. -/
theorem escrow_balance_invariant_witness :
    ChainInv initChain ∧
    createPayRequest initChain 1 2 3 4 = .ok c9State ∧
    ChainInv c9State :=
  ⟨escrow_balance_invariant.1, rfl,
    escrow_balance_invariant.2.2.1 initChain c9State 1 2 3 4
      escrow_balance_invariant.1 rfl⟩
